import Mathlib

/-!
Shallow embedding of the AutoJobber matching/scoring engine
(`src/ai-service/src/job_matcher.py`, with the posting record from
`src/ai-service/src/job_scraper.py` and the profile records from
`src/ai-service/src/resume_parser.py`).

Python floats are modelled as exact rationals (`ℚ`); `round(x, 2)` is
modelled as round-to-nearest at two decimal places.  Python's truthiness
test on an optional string (`if s:`) is modelled by `truthy`, Python's
substring test (`a in b`) by `pyIn`, and Python's no-argument
`str.split()` by `pySplit` (split on whitespace, dropping empty pieces).
Python `set`s of tokens are modelled as `Finset String`.
-/

namespace AutoJobber

/-- `Skill` record from `resume_parser.py`. -/
structure Skill where
  name : String
  level : Option String := none
deriving DecidableEq, Repr

/-- `Experience` record from `resume_parser.py`; `description` is used as an
optional string by the matcher (`exp.description or ""`). -/
structure Experience where
  title : String
  company : String
  location : Option String := none
  start_date : String := ""
  end_date : Option String := none
  description : Option String := none
deriving DecidableEq, Repr

/-- `ResumeData` record from `resume_parser.py` (the matcher reads only
`skills` and `experience`). -/
structure ResumeData where
  name : String
  email : String
  phone : Option String := none
  location : Option String := none
  summary : Option String := none
  skills : List Skill := []
  experience : List Experience := []
deriving DecidableEq, Repr

/-- `JobListing` record from `job_scraper.py`; `date_posted` is kept as an
opaque string (its ISO serialisation). -/
structure JobListing where
  job_id : String
  title : String
  company : String
  location : String
  description : String
  url : String
  date_posted : String
  salary_range : Option String := none
  job_type : Option String := none
  work_mode : Option String := none
  source : String := "unknown"
deriving DecidableEq, Repr

/-- The `preferences` dictionary read by `match_jobs` via
`preferences.get("location")`, `preferences.get("work_mode", "")` and
`preferences.get("job_type")`. -/
structure Preferences where
  location : Option String := none
  work_mode : Option String := none
  job_type : Option String := none
deriving DecidableEq, Repr

/-- One entry of the list returned by `match_jobs`: the posting's fields
(`JobListing.to_dict`) plus `match_score` and `match_reasons`. -/
structure MatchResult where
  job_id : String
  title : String
  company : String
  location : String
  description : String
  url : String
  date_posted : String
  salary_range : Option String
  job_type : Option String
  work_mode : Option String
  source : String
  match_score : ℚ
  match_reasons : List String
deriving DecidableEq, Repr

/-- Python truthiness of an optional string: `None` and `""` are falsy. -/
def truthy : Option String → Bool
  | none => false
  | some s => !(s == "")

/-- Python's `str.lower()`: lowercase every character. -/
def pyLower (s : String) : String :=
  ⟨s.data.map Char.toLower⟩

/-- Python's `", ".join(parts)`. -/
def pyJoin (sep : String) : List String → String
  | [] => ""
  | [a] => a
  | a :: b :: rest => a ++ sep ++ pyJoin sep (b :: rest)

/-- Python's `s.replace(",", "")`: removing every occurrence of the
one-character pattern `","` is exactly filtering the comma out. -/
def removeCommas (s : String) : String :=
  ⟨s.data.filter fun c => c ≠ ','⟩

/-- Python's no-argument `str.split()`: split on whitespace and drop the
empty pieces produced by leading/trailing/repeated whitespace. -/
def pySplit (s : String) : List String :=
  ((s.data.splitOnP fun c => c.isWhitespace).map fun l => (⟨l⟩ : String)).filter
    fun t => t ≠ ""

/-- Substring occurrence on character lists (helper for `pyIn`). -/
def containsSub (needle : List Char) : List Char → Bool
  | [] => needle.isEmpty
  | c :: rest => needle.isPrefixOf (c :: rest) || containsSub needle rest

/-- Python's `needle in hay` on strings: substring containment. -/
def pyIn (needle hay : String) : Bool :=
  containsSub needle.data hay.data

/-- `JobMatcher._text_similarity` (job_matcher.py lines 172-188): return 0
when either raw string is empty, otherwise form the whitespace token sets,
return 0 when either set is empty, otherwise the Jaccard coefficient
`|common| / (|words1| + |words2| - |common|)`. -/
def textSimilarity (text1 text2 : String) : ℚ :=
  if text1 = "" ∨ text2 = "" then 0
  else
    let words1 := (pySplit text1).toFinset
    let words2 := (pySplit text2).toFinset
    let common_words := words1 ∩ words2
    if words1 = ∅ ∨ words2 = ∅ then 0
    else (common_words.card : ℚ) /
      ((words1.card : ℚ) + (words2.card : ℚ) - (common_words.card : ℚ))

/-- The `similarity` operation as the engine invokes it: both arguments are
lowercased before `_text_similarity` is applied (job_matcher.py lines
147-161 lowercase at every call site). -/
def similarity (a b : String) : ℚ :=
  textSimilarity (pyLower a) (pyLower b)

/-- The accumulator loop of `calculate_skill_match_score`: for each skill in
order, append its original-case `name` when the lowercased name occurs in
the lowercased job description. -/
def skillLoop (job_desc_lower : String) : List Skill → List String → List String
  | [], matching_skills => matching_skills
  | skill :: rest, matching_skills =>
    skillLoop job_desc_lower rest
      (if pyIn (pyLower skill.name) job_desc_lower then matching_skills ++ [skill.name]
       else matching_skills)

/-- `JobMatcher.calculate_skill_match_score` (job_matcher.py lines 116-135). -/
def calculate_skill_match_score (resume_skills : List Skill) (job_description : String) :
    ℚ × List String :=
  let job_desc_lower := pyLower job_description
  let total_skills := resume_skills.length
  if total_skills = 0 then (0, [])
  else
    let matching_skills := skillLoop job_desc_lower resume_skills []
    ((matching_skills.length : ℚ) / (total_skills : ℚ), matching_skills)

/-- The per-entry score of the `calculate_experience_match` loop body:
`title_similarity * 0.7 + desc_similarity * 0.3`, with the entry's title and
(defaulted) description lowercased against the already-lowercased posting
title and description. -/
def entryScore (job_title_lower job_desc_lower : String) (exp : Experience) : ℚ :=
  textSimilarity (pyLower exp.title) job_title_lower * 0.7 +
    textSimilarity (pyLower (exp.description.getD "")) job_desc_lower * 0.3

/-- The accumulator loop of `calculate_experience_match`: the best score and
best title are overwritten only on a strict improvement
(`match_score > best_match_score`). -/
def expLoop (job_title_lower job_desc_lower : String) :
    List Experience → ℚ → Option String → ℚ × Option String
  | [], best_match_score, best_match_experience => (best_match_score, best_match_experience)
  | exp :: rest, best_match_score, best_match_experience =>
    if best_match_score < entryScore job_title_lower job_desc_lower exp then
      expLoop job_title_lower job_desc_lower rest
        (entryScore job_title_lower job_desc_lower exp) (some exp.title)
    else
      expLoop job_title_lower job_desc_lower rest best_match_score best_match_experience

/-- `JobMatcher.calculate_experience_match` (job_matcher.py lines 137-170). -/
def calculate_experience_match (resume_experience : List Experience)
    (job_title job_description : String) : ℚ × Option String :=
  if resume_experience = [] then (0, none)
  else expLoop (pyLower job_title) (pyLower job_description) resume_experience 0 none

/-- `JobMatcher.calculate_location_match` (job_matcher.py lines 190-222). -/
def calculate_location_match (resume_location : Option String) (job_location : String)
    (remote_preference : Bool) : ℚ × Bool :=
  let job_location_lower := pyLower job_location
  let is_remote_job := pyIn "remote" job_location_lower
  if remote_preference && is_remote_job then (1.0, true)
  else if !(truthy resume_location) then (0.5, false)
  else
    let resume_location_lower := pyLower (resume_location.getD "")
    let resume_parts := (pySplit (removeCommas resume_location_lower)).toFinset
    let job_parts := (pySplit (removeCommas job_location_lower)).toFinset
    let common_parts := resume_parts ∩ job_parts
    if common_parts ≠ ∅ then (0.8, false) else (0.2, false)

/-- Python's `round(x, 2)`: round to the nearest multiple of 1/100
(`Rat.floor (100 x + 1/2)`, i.e. round-to-nearest with halves up). -/
def round2 (x : ℚ) : ℚ :=
  ((x * 100 + 1/2).floor : ℚ) / 100

/-- The body of the `for job in job_listings` loop of `JobMatcher.match_jobs`
(job_matcher.py lines 238-290): score one posting and build its result
record with the reason list. -/
def matchOne (resume_data : ResumeData) (preferences : Preferences)
    (job : JobListing) : MatchResult :=
  let skillRes := calculate_skill_match_score resume_data.skills job.description
  let expRes := calculate_experience_match resume_data.experience job.title job.description
  let remote_preference := pyLower (preferences.work_mode.getD "") == "remote"
  let locRes := calculate_location_match preferences.location job.location remote_preference
  let overall_score := skillRes.1 * 0.5 + expRes.1 * 0.3 + locRes.1 * 0.2
  let match_reasons :=
    (if skillRes.2 ≠ [] then
      ["Skills match: " ++ pyJoin ", " (skillRes.2.take 3)] else [])
    ++ (if truthy expRes.2 then ["Experience match: " ++ (expRes.2.getD "")] else [])
    ++ (if locRes.2 then ["Remote work preference match"]
        else if (0.7 : ℚ) < locRes.1 then ["Location preference match"] else [])
    ++ (if truthy preferences.job_type && truthy job.job_type
          && pyIn (pyLower (preferences.job_type.getD "")) (pyLower (job.job_type.getD ""))
        then ["Job type match: " ++ (job.job_type.getD "")] else [])
  { job_id := job.job_id, title := job.title, company := job.company,
    location := job.location, description := job.description, url := job.url,
    date_posted := job.date_posted, salary_range := job.salary_range,
    job_type := job.job_type, work_mode := job.work_mode, source := job.source,
    match_score := round2 overall_score, match_reasons := match_reasons }

/-- The final `matched_jobs.sort(key=lambda x: x["match_score"], reverse=True)`
of `match_jobs`: a stable descending sort by score. -/
def rank (matched_jobs : List MatchResult) : List MatchResult :=
  matched_jobs.mergeSort fun a b => b.match_score ≤ a.match_score

/-- `JobMatcher.match_jobs` (job_matcher.py lines 224-295): score each
posting in input order and stably sort the results by descending score. -/
def match_jobs (resume_data : ResumeData) (job_listings : List JobListing)
    (preferences : Preferences) : List MatchResult :=
  rank (job_listings.map (matchOne resume_data preferences))

/-- The running maximum computed by the `calculate_experience_match` loop:
fold of `max` over the per-entry scores, started at the initial
`best_match_score = 0.0`. -/
def maxEntryScore (job_title_lower job_desc_lower : String)
    (entries : List Experience) : ℚ :=
  entries.foldl (fun acc x => max acc (entryScore job_title_lower job_desc_lower x)) 0

/-- The location rule cascade as §4.4 of the spec words it: rule 1 fires when
`remote_preference` holds and `"remote"` occurs case-insensitively in the
posting location; rule 2 when the candidate location is absent or empty;
rule 3 compares the lowercase comma-stripped whitespace token sets.  This is
a refinement model written from the spec's words, to be compared with
`calculate_location_match`. -/
def locationSpecRules (candidate_location : Option String) (posting_location : String)
    (remote_preference : Bool) : ℚ × Bool :=
  if remote_preference = true ∧ pyIn "remote" (pyLower posting_location) = true then
    (1.0, true)
  else if candidate_location = none ∨ candidate_location = some "" then (0.5, false)
  else if ((pySplit (removeCommas (pyLower (candidate_location.getD "")))).toFinset ∩
      (pySplit (removeCommas (pyLower posting_location))).toFinset) ≠ ∅ then (0.8, false)
  else (0.2, false)

/-- A posting record whose required `title` field may be absent (`none`),
modelling the malformed-input case of §7 of the spec.  All other fields are
as in `JobListing`. -/
structure JobListingOpt where
  job_id : String := ""
  title : Option String
  company : String := ""
  location : String
  description : String
  url : String := ""
  date_posted : String := ""
  salary_range : Option String := none
  job_type : Option String := none
  work_mode : Option String := none
  source : String := "unknown"
deriving DecidableEq, Repr

/-- Result record of the checked pipeline; `title` is passed through as the
possibly-absent value. -/
structure MatchResultOpt where
  job_id : String
  title : Option String
  company : String
  location : String
  description : String
  url : String
  date_posted : String
  salary_range : Option String
  job_type : Option String
  work_mode : Option String
  source : String
  match_score : ℚ
  match_reasons : List String
deriving DecidableEq, Repr

/-- The `match_jobs` loop body under Python's dynamic semantics when the
posting's `title` may be absent: `calculate_experience_match` checks for an
empty experience list before calling `job_title.lower()`, so an absent title
raises (`none`) exactly when the experience list is non-empty; every other
use of `title` passes the value through unevaluated.  `none` models the
raised `AttributeError`. -/
def matchOneOpt (resume_data : ResumeData) (preferences : Preferences)
    (job : JobListingOpt) : Option MatchResultOpt :=
  let skillRes := calculate_skill_match_score resume_data.skills job.description
  let expResOpt : Option (ℚ × Option String) :=
    if resume_data.experience = [] then some (0, none)
    else
      match job.title with
      | none => none
      | some t => some (calculate_experience_match resume_data.experience t job.description)
  match expResOpt with
  | none => none
  | some expRes =>
    let remote_preference := pyLower (preferences.work_mode.getD "") == "remote"
    let locRes := calculate_location_match preferences.location job.location remote_preference
    let overall_score := skillRes.1 * 0.5 + expRes.1 * 0.3 + locRes.1 * 0.2
    let match_reasons :=
      (if skillRes.2 ≠ [] then
        ["Skills match: " ++ pyJoin ", " (skillRes.2.take 3)] else [])
      ++ (if truthy expRes.2 then ["Experience match: " ++ (expRes.2.getD "")] else [])
      ++ (if locRes.2 then ["Remote work preference match"]
          else if (0.7 : ℚ) < locRes.1 then ["Location preference match"] else [])
      ++ (if truthy preferences.job_type && truthy job.job_type
            && pyIn (pyLower (preferences.job_type.getD "")) (pyLower (job.job_type.getD ""))
          then ["Job type match: " ++ (job.job_type.getD "")] else [])
    some ⟨job.job_id, job.title, job.company, job.location, job.description,
      job.url, job.date_posted, job.salary_range, job.job_type, job.work_mode,
      job.source, round2 overall_score, match_reasons⟩

/-- The `for job in job_listings` loop over possibly-malformed postings: a
raised error on any posting propagates and aborts the whole call. -/
def matchLoopOpt (resume_data : ResumeData) (preferences : Preferences) :
    List JobListingOpt → Option (List MatchResultOpt)
  | [] => some []
  | job :: rest =>
    match matchOneOpt resume_data preferences job with
    | none => none
    | some r => (matchLoopOpt resume_data preferences rest).map (r :: ·)

/-- `match_jobs` over possibly-malformed postings: loop, then the stable
descending sort (which is reached only when no posting raised). -/
def match_jobs_opt (resume_data : ResumeData) (job_listings : List JobListingOpt)
    (preferences : Preferences) : Option (List MatchResultOpt) :=
  (matchLoopOpt resume_data preferences job_listings).map
    (·.mergeSort fun a b => b.match_score ≤ a.match_score)

/-! ### Concrete fixtures used by counterexamples and witnesses -/

/-- Profile with one experience entry whose title shares no word with the
posting title and whose description is absent: every entry score is 0. -/
def cxExp4 : Experience :=
  { title := "abc", company := "c" }

/-- A second all-zero-score entry, for the C8 counterexample. -/
def cxExp8 : Experience :=
  { title := "abcd", company := "c" }

/-- Profile whose single experience entry has an empty title but a
description overlapping the posting description. -/
def cxResume9 : ResumeData :=
  { name := "n", email := "e",
    experience := [{ title := "", company := "c", description := some "alpha" }] }

/-- Posting whose description equals that entry's description. -/
def cxJob9 : JobListing :=
  { job_id := "1", title := "xyz", company := "co", location := "loc",
    description := "alpha", url := "u", date_posted := "d" }

/-- Profile with a non-empty experience list (so a missing posting title is
dereferenced). -/
def cxResume3 : ResumeData :=
  { name := "n", email := "e",
    experience := [{ title := "engineer", company := "c" }] }

/-- A well-formed posting for the checked pipeline. -/
def cxJobOptGood : JobListingOpt :=
  { title := some "engineer", location := "loc", description := "desc" }

/-- A malformed posting: its required `title` is absent. -/
def cxJobOptBad : JobListingOpt :=
  { title := none, location := "loc", description := "desc" }

/-- Profile used by witnesses: three skills, one experience entry. -/
def witResume : ResumeData :=
  { name := "John Doe", email := "j@x.com",
    skills := [{ name := "Python" }, { name := "Machine Learning" }, { name := "SQL" }],
    experience := [{ title := "Senior Software Engineer", company := "Tech Company",
                     description := some "Developed machine learning models" }] }

/-- Posting used by witnesses. -/
def witJob : JobListing :=
  { job_id := "job1", title := "Senior Machine Learning Engineer",
    company := "AI Solutions", location := "New York, NY",
    description := "We need an expert in Python and machine learning.",
    url := "u", date_posted := "d", job_type := some "Full-time",
    work_mode := some "Hybrid" }

/-- Preferences used by witnesses. -/
def witPrefs : Preferences :=
  { location := some "New York, NY", work_mode := some "hybrid",
    job_type := some "Full-time" }

/-- Two results with equal scores, for the ranking-stability witness. -/
def witResultA : MatchResult :=
  { job_id := "a", title := "A", company := "ca", location := "la",
    description := "da", url := "ua", date_posted := "ta", salary_range := none,
    job_type := none, work_mode := none, source := "s",
    match_score := 0.5, match_reasons := [] }

/-- Second equal-score result (distinct fields, same score). -/
def witResultB : MatchResult :=
  { job_id := "b", title := "B", company := "cb", location := "lb",
    description := "db", url := "ub", date_posted := "tb", salary_range := none,
    job_type := none, work_mode := none, source := "s",
    match_score := 0.5, match_reasons := [] }

/-- A higher-scoring result, so the witness list is not score-constant. -/
def witResultC : MatchResult :=
  { job_id := "c", title := "C", company := "cc", location := "lc",
    description := "dc", url := "uc", date_posted := "tc", salary_range := none,
    job_type := none, work_mode := none, source := "s",
    match_score := 0.9, match_reasons := [] }

/-! ### Basic lemmas about the similarity utility -/

theorem textSimilarity_eq (x y : String) :
    textSimilarity x y =
      if x = "" ∨ y = "" then 0
      else if (pySplit x).toFinset = ∅ ∨ (pySplit y).toFinset = ∅ then 0
      else ((((pySplit x).toFinset ∩ (pySplit y).toFinset).card : ℚ) /
        (((pySplit x).toFinset.card : ℚ) + ((pySplit y).toFinset.card : ℚ) -
          (((pySplit x).toFinset ∩ (pySplit y).toFinset).card : ℚ))) := rfl

theorem textSimilarity_nonneg (x y : String) : 0 ≤ textSimilarity x y := by
  rw [textSimilarity_eq]
  split
  · exact le_refl 0
  · split
    · exact le_refl 0
    · have hca : ((pySplit x).toFinset ∩ (pySplit y).toFinset).card ≤
          (pySplit x).toFinset.card :=
        Finset.card_le_card Finset.inter_subset_left
      have hca' : (((pySplit x).toFinset ∩ (pySplit y).toFinset).card : ℚ) ≤
          ((pySplit x).toFinset.card : ℚ) := by exact_mod_cast hca
      have hb : (0 : ℚ) ≤ ((pySplit y).toFinset.card : ℚ) := Nat.cast_nonneg _
      have hc : (0 : ℚ) ≤ (((pySplit x).toFinset ∩ (pySplit y).toFinset).card : ℚ) :=
        Nat.cast_nonneg _
      exact div_nonneg hc (by linarith)

theorem textSimilarity_le_one (x y : String) : textSimilarity x y ≤ 1 := by
  rw [textSimilarity_eq]
  split
  · exact zero_le_one
  · split
    · exact zero_le_one
    · next h =>
      push_neg at h
      have hA : 1 ≤ (pySplit x).toFinset.card :=
        Finset.one_le_card.mpr (Finset.nonempty_iff_ne_empty.mpr h.1)
      have hca : ((pySplit x).toFinset ∩ (pySplit y).toFinset).card ≤
          (pySplit x).toFinset.card :=
        Finset.card_le_card Finset.inter_subset_left
      have hcb : ((pySplit x).toFinset ∩ (pySplit y).toFinset).card ≤
          (pySplit y).toFinset.card :=
        Finset.card_le_card Finset.inter_subset_right
      have hA' : (1 : ℚ) ≤ ((pySplit x).toFinset.card : ℚ) := by exact_mod_cast hA
      have hca' : (((pySplit x).toFinset ∩ (pySplit y).toFinset).card : ℚ) ≤
          ((pySplit x).toFinset.card : ℚ) := by exact_mod_cast hca
      have hcb' : (((pySplit x).toFinset ∩ (pySplit y).toFinset).card : ℚ) ≤
          ((pySplit y).toFinset.card : ℚ) := by exact_mod_cast hcb
      rw [div_le_one (by linarith)]
      linarith

theorem similarity_nonneg (a b : String) : 0 ≤ similarity a b :=
  textSimilarity_nonneg _ _

theorem similarity_le_one (a b : String) : similarity a b ≤ 1 :=
  textSimilarity_le_one _ _

theorem pySplit_empty : pySplit "" = [] := rfl

theorem pyLower_empty : pyLower "" = "" := rfl

/-- A string whose whitespace token set is non-empty is itself non-empty. -/
theorem ne_empty_of_tokens_ne_empty {s : String} (h : (pySplit s).toFinset ≠ ∅) :
    s ≠ "" := by
  intro hs
  subst hs
  exact h (by rfl)

/-! ### Skill scorer lemmas -/

theorem skillLoop_eq (d : String) (skills : List Skill) (acc : List String) :
    skillLoop d skills acc =
      acc ++ (skills.filter fun sk => pyIn (pyLower sk.name) d).map Skill.name := by
  induction skills generalizing acc with
  | nil => simp [skillLoop]
  | cons sk rest ih =>
    simp only [skillLoop]
    cases h : pyIn (pyLower sk.name) d with
    | true =>
      rw [if_pos (by simp [h]), ih, List.filter_cons_of_pos (by simp [h]), List.map_cons,
        List.append_assoc, List.singleton_append]
    | false =>
      rw [if_neg (by simp [h]), ih, List.filter_cons_of_neg (by simp [h])]

theorem skill_match_matched_eq (skills : List Skill) (text : String) :
    (calculate_skill_match_score skills text).2 =
      (skills.filter fun sk => pyIn (pyLower sk.name) (pyLower text)).map Skill.name := by
  cases skills with
  | nil => rfl
  | cons sk rest =>
    rw [show (calculate_skill_match_score (sk :: rest) text).2 =
        skillLoop (pyLower text) (sk :: rest) [] from rfl, skillLoop_eq, List.nil_append]

theorem skill_match_score_nonneg (skills : List Skill) (text : String) :
    0 ≤ (calculate_skill_match_score skills text).1 := by
  cases skills with
  | nil => exact le_refl 0
  | cons sk rest =>
    have : (calculate_skill_match_score (sk :: rest) text).1 =
        ((skillLoop (pyLower text) (sk :: rest) []).length : ℚ) /
          (((sk :: rest).length : ℚ)) := rfl
    rw [this]
    exact div_nonneg (Nat.cast_nonneg _) (Nat.cast_nonneg _)

theorem skill_match_score_le_one (skills : List Skill) (text : String) :
    (calculate_skill_match_score skills text).1 ≤ 1 := by
  cases skills with
  | nil => exact zero_le_one
  | cons sk rest =>
    have h1 : (calculate_skill_match_score (sk :: rest) text).1 =
        ((skillLoop (pyLower text) (sk :: rest) []).length : ℚ) /
          (((sk :: rest).length : ℚ)) := rfl
    have hlen : (skillLoop (pyLower text) (sk :: rest) []).length ≤ (sk :: rest).length := by
      rw [skillLoop_eq, List.nil_append, List.length_map]
      exact List.length_filter_le _ _
    have hpos : (0 : ℚ) < ((sk :: rest).length : ℚ) := by
      simp [List.length_cons]
      positivity
    rw [h1, div_le_one hpos]
    exact_mod_cast hlen

/-! ### Experience scorer lemmas -/

theorem entryScore_nonneg (jt jd : String) (e : Experience) :
    0 ≤ entryScore jt jd e := by
  unfold entryScore
  have h1 := textSimilarity_nonneg (pyLower e.title) jt
  have h2 := textSimilarity_nonneg (pyLower (e.description.getD "")) jd
  nlinarith

theorem entryScore_le_one (jt jd : String) (e : Experience) :
    entryScore jt jd e ≤ 1 := by
  unfold entryScore
  have h1 := textSimilarity_le_one (pyLower e.title) jt
  have h2 := textSimilarity_le_one (pyLower (e.description.getD "")) jd
  have h3 := textSimilarity_nonneg (pyLower e.title) jt
  have h4 := textSimilarity_nonneg (pyLower (e.description.getD "")) jd
  nlinarith

theorem expLoop_fst (jt jd : String) (entries : List Experience) (b : ℚ)
    (t : Option String) :
    (expLoop jt jd entries b t).1 =
      entries.foldl (fun acc x => max acc (entryScore jt jd x)) b := by
  induction entries generalizing b t with
  | nil => rfl
  | cons e rest ih =>
    simp only [expLoop, List.foldl_cons]
    by_cases h : b < entryScore jt jd e
    · rw [if_pos h, ih, max_eq_right h.le]
    · rw [if_neg h, ih, max_eq_left (not_lt.mp h)]

theorem le_foldl_entry (jt jd : String) (entries : List Experience) (b : ℚ) :
    b ≤ entries.foldl (fun acc x => max acc (entryScore jt jd x)) b := by
  induction entries generalizing b with
  | nil => exact le_refl b
  | cons e rest ih =>
    simp only [List.foldl_cons]
    exact le_trans (le_max_left _ _) (ih (max b (entryScore jt jd e)))

theorem foldl_entry_le_iff (jt jd : String) (entries : List Experience) (b c : ℚ) :
    entries.foldl (fun acc x => max acc (entryScore jt jd x)) b ≤ c ↔
      b ≤ c ∧ ∀ e ∈ entries, entryScore jt jd e ≤ c := by
  induction entries generalizing b with
  | nil => simp
  | cons e rest ih =>
    simp only [List.foldl_cons, ih, max_le_iff, List.mem_cons]
    constructor
    · rintro ⟨⟨hb, he⟩, hr⟩
      refine ⟨hb, fun x hx => ?_⟩
      rcases hx with rfl | hx
      · exact he
      · exact hr x hx
    · rintro ⟨hb, h⟩
      exact ⟨⟨hb, h e (Or.inl rfl)⟩, fun x hx => h x (Or.inr hx)⟩

theorem foldl_entry_attained (jt jd : String) (entries : List Experience) (b : ℚ)
    (h : b < entries.foldl (fun acc x => max acc (entryScore jt jd x)) b) :
    ∃ e ∈ entries, entryScore jt jd e =
      entries.foldl (fun acc x => max acc (entryScore jt jd x)) b := by
  induction entries generalizing b with
  | nil => exact absurd h (lt_irrefl b)
  | cons e rest ih =>
    simp only [List.foldl_cons] at h ⊢
    by_cases h2 : max b (entryScore jt jd e) <
        rest.foldl (fun acc x => max acc (entryScore jt jd x)) (max b (entryScore jt jd e))
    · obtain ⟨x, hx, hxe⟩ := ih (max b (entryScore jt jd e)) h2
      exact ⟨x, List.mem_cons_of_mem _ hx, hxe⟩
    · have hM : rest.foldl (fun acc x => max acc (entryScore jt jd x))
          (max b (entryScore jt jd e)) = max b (entryScore jt jd e) :=
        le_antisymm (not_lt.mp h2) (le_foldl_entry jt jd rest _)
      rw [hM] at h ⊢
      rcases max_cases b (entryScore jt jd e) with ⟨hmax, _⟩ | ⟨hmax, _⟩
      · rw [hmax] at h
        exact absurd h (lt_irrefl b)
      · exact ⟨e, List.mem_cons_self _ _, hmax.symm⟩

theorem expLoop_snd (jt jd : String) (entries : List Experience) (b : ℚ)
    (t : Option String) :
    (expLoop jt jd entries b t).2 =
      if b < entries.foldl (fun acc x => max acc (entryScore jt jd x)) b then
        (entries.find? fun x => decide (entryScore jt jd x =
          entries.foldl (fun acc y => max acc (entryScore jt jd y)) b)).map
          Experience.title
      else t := by
  induction entries generalizing b t with
  | nil => simp [expLoop]
  | cons e rest ih =>
    simp only [expLoop, List.foldl_cons]
    by_cases h : b < entryScore jt jd e
    · rw [if_pos h, ih]
      simp only [max_eq_right h.le]
      have hbM : b < rest.foldl (fun acc x => max acc (entryScore jt jd x))
          (entryScore jt jd e) :=
        lt_of_lt_of_le h (le_foldl_entry jt jd rest _)
      rw [if_pos hbM]
      by_cases h2 : entryScore jt jd e <
          rest.foldl (fun acc x => max acc (entryScore jt jd x)) (entryScore jt jd e)
      · rw [if_pos h2, List.find?_cons_of_neg _ (by simpa using ne_of_lt h2)]
      · have hsM : entryScore jt jd e =
            rest.foldl (fun acc x => max acc (entryScore jt jd x)) (entryScore jt jd e) :=
          le_antisymm (le_foldl_entry jt jd rest _) (not_lt.mp h2)
        rw [if_neg h2, List.find?_cons_of_pos _ (by simpa using hsM), Option.map_some']
    · rw [if_neg h, ih]
      simp only [max_eq_left (not_lt.mp h)]
      by_cases h2 : b < rest.foldl (fun acc x => max acc (entryScore jt jd x)) b
      · have hne : entryScore jt jd e ≠
            rest.foldl (fun acc x => max acc (entryScore jt jd x)) b :=
          ne_of_lt (lt_of_le_of_lt (not_lt.mp h) h2)
        rw [if_pos h2, if_pos h2, List.find?_cons_of_neg _ (by simpa using hne)]
      · rw [if_neg h2, if_neg h2]

theorem experience_score_nonneg (entries : List Experience) (jt jd : String) :
    0 ≤ (calculate_experience_match entries jt jd).1 := by
  cases entries with
  | nil => exact le_refl 0
  | cons e rest =>
    rw [show (calculate_experience_match (e :: rest) jt jd).1 =
        (expLoop (pyLower jt) (pyLower jd) (e :: rest) 0 none).1 from rfl, expLoop_fst]
    exact le_foldl_entry _ _ _ _

theorem experience_score_le_one (entries : List Experience) (jt jd : String) :
    (calculate_experience_match entries jt jd).1 ≤ 1 := by
  cases entries with
  | nil => exact zero_le_one
  | cons e rest =>
    rw [show (calculate_experience_match (e :: rest) jt jd).1 =
        (expLoop (pyLower jt) (pyLower jd) (e :: rest) 0 none).1 from rfl, expLoop_fst]
    exact (foldl_entry_le_iff _ _ _ _ _).mpr
      ⟨zero_le_one, fun x _ => entryScore_le_one _ _ x⟩

/-! ### Location scorer lemmas -/

theorem calculate_location_match_eq (cl : Option String) (pl : String) (rp : Bool) :
    calculate_location_match cl pl rp =
      if rp && pyIn "remote" (pyLower pl) then (1.0, true)
      else if !(truthy cl) then (0.5, false)
      else if ((pySplit (removeCommas (pyLower (cl.getD "")))).toFinset ∩
          (pySplit (removeCommas (pyLower pl))).toFinset) ≠ ∅ then (0.8, false)
      else (0.2, false) := rfl

theorem location_cases (cl : Option String) (pl : String) (rp : Bool) :
    calculate_location_match cl pl rp = (1.0, true) ∨
    calculate_location_match cl pl rp = (0.5, false) ∨
    calculate_location_match cl pl rp = (0.8, false) ∨
    calculate_location_match cl pl rp = (0.2, false) := by
  rw [calculate_location_match_eq]
  split_ifs <;> simp

theorem location_score_nonneg (cl : Option String) (pl : String) (rp : Bool) :
    0 ≤ (calculate_location_match cl pl rp).1 := by
  rcases location_cases cl pl rp with h | h | h | h <;> rw [h] <;> norm_num

theorem location_score_le_one (cl : Option String) (pl : String) (rp : Bool) :
    (calculate_location_match cl pl rp).1 ≤ 1 := by
  rcases location_cases cl pl rp with h | h | h | h <;> rw [h] <;> norm_num

/-! ### Rounding lemmas -/

theorem ratFloor_eq_intFloor (q : ℚ) : q.floor = ⌊q⌋ := by
  rw [Rat.floor_def']
  rw [Rat.floor_def]

theorem round2_nonneg (x : ℚ) (h0 : 0 ≤ x) : 0 ≤ round2 x := by
  unfold round2
  rw [ratFloor_eq_intFloor]
  apply div_nonneg _ (by norm_num)
  have h : (0 : ℤ) ≤ ⌊x * 100 + 1/2⌋ := Int.le_floor.mpr (by push_cast; linarith)
  exact_mod_cast h

theorem round2_le_one (x : ℚ) (h1 : x ≤ 1) : round2 x ≤ 1 := by
  unfold round2
  rw [ratFloor_eq_intFloor, div_le_one (by norm_num)]
  have h2 : ⌊x * 100 + 1/2⌋ ≤ ⌊(100 : ℚ) + 1/2⌋ := Int.floor_mono (by linarith)
  have h3 : ⌊(100 : ℚ) + 1/2⌋ = 100 := by
    rw [Int.floor_eq_iff]
    norm_num
  rw [h3] at h2
  exact_mod_cast h2

theorem maxEntryScore_def (jt jd : String) (entries : List Experience) :
    maxEntryScore jt jd entries =
      entries.foldl (fun acc x => max acc (entryScore jt jd x)) 0 := rfl

/-! ### Claim C5 -/

/-- Claim C5: `similarity` lowercases both inputs, splits them on whitespace
into token sets, returns 0 when either token set is empty, and otherwise
returns the Jaccard coefficient `card ∩ / (card A + card B - card ∩)`; the
result always lies in `[0, 1]`. -/
theorem claim_C5 (a b : String) :
    (0 ≤ similarity a b ∧ similarity a b ≤ 1) ∧
    (((pySplit (pyLower a)).toFinset = ∅ ∨ (pySplit (pyLower b)).toFinset = ∅) →
      similarity a b = 0) ∧
    ((pySplit (pyLower a)).toFinset ≠ ∅ → (pySplit (pyLower b)).toFinset ≠ ∅ →
      similarity a b =
        (((pySplit (pyLower a)).toFinset ∩ (pySplit (pyLower b)).toFinset).card : ℚ) /
          (((pySplit (pyLower a)).toFinset.card : ℚ) +
            ((pySplit (pyLower b)).toFinset.card : ℚ) -
            (((pySplit (pyLower a)).toFinset ∩ (pySplit (pyLower b)).toFinset).card : ℚ))) := by
  refine ⟨⟨similarity_nonneg a b, similarity_le_one a b⟩, ?_, ?_⟩
  · intro h
    unfold similarity
    rw [textSimilarity_eq]
    by_cases h1 : pyLower a = "" ∨ pyLower b = ""
    · rw [if_pos h1]
    · rw [if_neg h1, if_pos h]
  · intro ha hb
    have h1 : ¬(pyLower a = "" ∨ pyLower b = "") := by
      rintro (h | h)
      · exact ha (by rw [h]; rfl)
      · exact hb (by rw [h]; rfl)
    have h2 : ¬((pySplit (pyLower a)).toFinset = ∅ ∨ (pySplit (pyLower b)).toFinset = ∅) := by
      rintro (h | h)
      · exact ha h
      · exact hb h
    unfold similarity
    rw [textSimilarity_eq, if_neg h1, if_neg h2]

/-- Witness for C5 at a concrete pair of strings: token sets `{alpha, beta}`
and `{beta, gamma}` give Jaccard 1/3. -/
theorem claim_C5_witness : similarity "Alpha beta" "beta gamma" = 1/3 := by
  have h := (claim_C5 "Alpha beta" "beta gamma").2.2
    (by with_unfolding_all decide) (by with_unfolding_all decide)
  rw [h]
  with_unfolding_all decide

/-! ### Claim C6 -/

/-- Claim C6: `calculate_location_match` implements exactly the spec's
three-rule cascade, first matching rule wins: remote preference + remote
posting gives `(1.0, true)`; absent/empty candidate location gives
`(0.5, false)`; otherwise non-empty intersection of the lowercase,
comma-stripped token sets gives `(0.8, false)`, else `(0.2, false)`. -/
theorem claim_C6 (cl : Option String) (pl : String) (rp : Bool) :
    calculate_location_match cl pl rp = locationSpecRules cl pl rp := by
  rw [calculate_location_match_eq]
  unfold locationSpecRules
  by_cases h1 : rp = true ∧ pyIn "remote" (pyLower pl) = true
  · rw [if_pos (by simp [h1.1, h1.2]), if_pos h1]
  · have h1' : ¬(rp && pyIn "remote" (pyLower pl)) = true := by
      simpa [Bool.and_eq_true] using h1
    rw [if_neg h1', if_neg h1]
    by_cases h2 : cl = none ∨ cl = some ""
    · have h2' : (!(truthy cl)) = true := by
        rcases h2 with rfl | rfl <;> rfl
      rw [if_pos h2', if_pos h2]
    · have h2' : ¬(!(truthy cl)) = true := by
        cases cl with
        | none => exact absurd (Or.inl rfl) h2
        | some s =>
          have hs : s ≠ "" := fun h => h2 (Or.inr (by rw [h]))
          simp [truthy, hs]
      rw [if_neg h2', if_neg h2]

/-! ### Claim C7 -/

/-- Claim C7: `calculate_skill_match_score` returns `(0, [])` for an empty
skill list; otherwise the matched list is exactly the input-ordered,
original-case names of the skills whose lowercased name occurs in the
lowercased posting text, and the score is `|matched| / |skills|`. -/
theorem claim_C7 (skills : List Skill) (text : String) :
    (skills = [] → calculate_skill_match_score skills text = (0, [])) ∧
    (skills ≠ [] →
      (calculate_skill_match_score skills text).2 =
        (skills.filter fun sk => pyIn (pyLower sk.name) (pyLower text)).map Skill.name ∧
      (calculate_skill_match_score skills text).1 =
        ((((skills.filter fun sk => pyIn (pyLower sk.name) (pyLower text)).map
          Skill.name).length : ℚ)) / (skills.length : ℚ)) := by
  constructor
  · rintro rfl
    rfl
  · intro hne
    refine ⟨skill_match_matched_eq skills text, ?_⟩
    cases skills with
    | nil => exact absurd rfl hne
    | cons sk rest =>
      have h1 : (calculate_skill_match_score (sk :: rest) text).1 =
          ((skillLoop (pyLower text) (sk :: rest) []).length : ℚ) /
            (((sk :: rest).length : ℚ)) := rfl
      rw [h1, skillLoop_eq, List.nil_append]

/-- Witness for C7 on the three-skill fixture profile: hypotheses hold and
the matched list is the filtered name list. -/
theorem claim_C7_witness :
    (calculate_skill_match_score witResume.skills witJob.description).2 =
      (witResume.skills.filter fun sk =>
        pyIn (pyLower sk.name) (pyLower witJob.description)).map Skill.name :=
  ((claim_C7 witResume.skills witJob.description).2 (by with_unfolding_all decide)).1

/-! ### Claim C4 (corrected) -/

/-- Counterexample to C4 as stated: a non-empty experience list (one entry,
title sharing no word with the posting title, absent description) still
yields `best_title = none`, because the loop assigns a best entry only on a
strict score improvement over the initial 0. -/
theorem claim_C4_counterexample :
    (calculate_experience_match [cxExp4] "xyz" "").2 = none ∧ ([cxExp4] : List Experience) ≠ [] := by
  constructor
  · with_unfolding_all decide
  · with_unfolding_all decide

/-- Claim C4 amended: `best_title` is `none` iff every entry scores exactly
0 (in particular for the empty list); a non-empty list yields a non-`none`
title only when some entry scores positively. -/
theorem claim_C4_amended (entries : List Experience) (jt jd : String) :
    (calculate_experience_match entries jt jd).2 = none ↔
      ∀ e ∈ entries, entryScore (pyLower jt) (pyLower jd) e = 0 := by
  cases entries with
  | nil => simp [calculate_experience_match]
  | cons e rest =>
    rw [show calculate_experience_match (e :: rest) jt jd =
        expLoop (pyLower jt) (pyLower jd) (e :: rest) 0 none from rfl, expLoop_snd]
    by_cases h : (0 : ℚ) < (e :: rest).foldl
        (fun acc x => max acc (entryScore (pyLower jt) (pyLower jd) x)) 0
    · rw [if_pos h]
      obtain ⟨x, hx, hxe⟩ := foldl_entry_attained _ _ _ _ h
      constructor
      · intro hmap
        have hfind := Option.map_eq_none'.mp hmap
        exact absurd (List.find?_eq_none.mp hfind x hx) (by simp [hxe])
      · intro hall
        have hle : (e :: rest).foldl
            (fun acc x => max acc (entryScore (pyLower jt) (pyLower jd) x)) 0 ≤ 0 :=
          (foldl_entry_le_iff _ _ _ _ _).mpr
            ⟨le_refl 0, fun x hx => (hall x hx).le⟩
        exact absurd h (not_lt.mpr hle)
    · rw [if_neg h]
      have hall := ((foldl_entry_le_iff _ _ _ _ _).mp (not_lt.mp h)).2
      constructor
      · intro _
        exact fun x hx => le_antisymm (hall x hx) (entryScore_nonneg _ _ x)
      · intro _
        rfl

/-- Witness for the amended C4: with one all-zero entry and these posting
fields, the hypotheses hold and `best_title` is `none`. -/
theorem claim_C4_witness :
    (calculate_experience_match [{ title := "zz", company := "c" }] "qq" "").2 = none := by
  apply (claim_C4_amended [{ title := "zz", company := "c" }] "qq" "").mpr
  intro e he
  rw [List.mem_singleton] at he
  subst he
  with_unfolding_all decide

/-! ### Claim C8 (corrected) -/

/-- Counterexample to C8 as stated: the single entry trivially achieves the
maximum per-entry score (0), yet its title is not returned — the result
title is `none`, not `some cxExp8.title`. -/
theorem claim_C8_counterexample :
    (calculate_experience_match [cxExp8] "wxyz" "").2 ≠ some cxExp8.title ∧
    entryScore (pyLower "wxyz") (pyLower "") cxExp8 =
      maxEntryScore (pyLower "wxyz") (pyLower "") [cxExp8] := by
  constructor
  · with_unfolding_all decide
  · with_unfolding_all decide

/-- Claim C8 amended: the returned score is the running maximum (fold of
`max` over the per-entry scores `0.7*title_sim + 0.3*desc_sim`, started at
0), which bounds every entry's score; when that maximum is positive the
returned title is the title of the **first** entry achieving it (ties keep
the first); when no entry scores above 0 the title is `none`. -/
theorem claim_C8_amended (entries : List Experience) (jt jd : String)
    (hne : entries ≠ []) :
    (calculate_experience_match entries jt jd).1 =
      maxEntryScore (pyLower jt) (pyLower jd) entries ∧
    (∀ e ∈ entries, entryScore (pyLower jt) (pyLower jd) e ≤
      maxEntryScore (pyLower jt) (pyLower jd) entries) ∧
    (0 < maxEntryScore (pyLower jt) (pyLower jd) entries →
      ∃ e, entries.find? (fun x => decide (entryScore (pyLower jt) (pyLower jd) x =
          maxEntryScore (pyLower jt) (pyLower jd) entries)) = some e ∧
        (calculate_experience_match entries jt jd).2 = some e.title) ∧
    (maxEntryScore (pyLower jt) (pyLower jd) entries ≤ 0 →
      (calculate_experience_match entries jt jd).2 = none) := by
  cases entries with
  | nil => exact absurd rfl hne
  | cons e rest =>
    have hcalc : calculate_experience_match (e :: rest) jt jd =
        expLoop (pyLower jt) (pyLower jd) (e :: rest) 0 none := rfl
    rw [maxEntryScore_def]
    refine ⟨?_, ?_, ?_, ?_⟩
    · rw [hcalc, expLoop_fst]
    · exact ((foldl_entry_le_iff _ _ _ _ _).mp (le_refl _)).2
    · intro hpos
      rw [hcalc, expLoop_snd, if_pos hpos]
      obtain ⟨x, hx, hxe⟩ := foldl_entry_attained _ _ _ _ hpos
      have hex : ∃ y, (e :: rest).find? (fun x =>
          decide (entryScore (pyLower jt) (pyLower jd) x = (e :: rest).foldl
            (fun acc y => max acc (entryScore (pyLower jt) (pyLower jd) y)) 0)) = some y := by
        rw [← Option.isSome_iff_exists, List.find?_isSome]
        exact ⟨x, hx, by simp [hxe]⟩
      obtain ⟨y, hy⟩ := hex
      exact ⟨y, hy, by rw [hy]; rfl⟩
    · intro hle
      rw [hcalc, expLoop_snd, if_neg (not_lt.mpr hle)]

/-- Witness for the amended C8: the hypothesis (non-empty entries) holds at
a concrete input and the returned score equals the fold-of-max. -/
theorem claim_C8_witness :
    (calculate_experience_match [{ title := "alpha beta", company := "c" }] "alpha" "").1 =
      maxEntryScore (pyLower "alpha") (pyLower "")
        [{ title := "alpha beta", company := "c" }] :=
  (claim_C8_amended [{ title := "alpha beta", company := "c" }] "alpha" ""
    (by simp)).1

/-! ### Claim C1 -/

theorem matchOne_score_eq (resume_data : ResumeData) (preferences : Preferences)
    (job : JobListing) :
    (matchOne resume_data preferences job).match_score = round2
      ((calculate_skill_match_score resume_data.skills job.description).1 * 0.5 +
        (calculate_experience_match resume_data.experience job.title job.description).1 * 0.3 +
        (calculate_location_match preferences.location job.location
          (pyLower (preferences.work_mode.getD "") == "remote")).1 * 0.2) := rfl

/-- Claim C1: every result produced by `match_jobs` has a score `s` with
`0 ≤ s ≤ 1`, and `s` equals
`0.5*skill_score + 0.3*experience_score + 0.2*location_score` rounded to
two decimal places (the result is the per-posting emission of some input
posting). -/
theorem claim_C1 (resume_data : ResumeData) (preferences : Preferences)
    (job_listings : List JobListing) (r : MatchResult)
    (hr : r ∈ match_jobs resume_data job_listings preferences) :
    (0 ≤ r.match_score ∧ r.match_score ≤ 1) ∧
    ∃ job ∈ job_listings, r = matchOne resume_data preferences job ∧
      r.match_score = round2
        ((calculate_skill_match_score resume_data.skills job.description).1 * 0.5 +
          (calculate_experience_match resume_data.experience job.title job.description).1 * 0.3 +
          (calculate_location_match preferences.location job.location
            (pyLower (preferences.work_mode.getD "") == "remote")).1 * 0.2) := by
  simp only [match_jobs, rank, List.mem_mergeSort] at hr
  obtain ⟨job, hjob, hjr⟩ := List.mem_map.mp hr
  have hscore : r.match_score = round2
      ((calculate_skill_match_score resume_data.skills job.description).1 * 0.5 +
        (calculate_experience_match resume_data.experience job.title job.description).1 * 0.3 +
        (calculate_location_match preferences.location job.location
          (pyLower (preferences.work_mode.getD "") == "remote")).1 * 0.2) := by
    rw [← hjr, matchOne_score_eq]
  have hs0 := skill_match_score_nonneg resume_data.skills job.description
  have hs1 := skill_match_score_le_one resume_data.skills job.description
  have he0 := experience_score_nonneg resume_data.experience job.title job.description
  have he1 := experience_score_le_one resume_data.experience job.title job.description
  have hl0 := location_score_nonneg preferences.location job.location
    (pyLower (preferences.work_mode.getD "") == "remote")
  have hl1 := location_score_le_one preferences.location job.location
    (pyLower (preferences.work_mode.getD "") == "remote")
  refine ⟨⟨?_, ?_⟩, job, hjob, hjr.symm, hscore⟩
  · rw [hscore]
    exact round2_nonneg _ (by nlinarith)
  · rw [hscore]
    exact round2_le_one _ (by nlinarith)

/-- Witness for C1: the fixture result is in the output of `match_jobs` on
the fixture inputs, and its score lies in `[0, 1]`. -/
theorem claim_C1_witness :
    0 ≤ (matchOne witResume witPrefs witJob).match_score ∧
      (matchOne witResume witPrefs witJob).match_score ≤ 1 :=
  (claim_C1 witResume witPrefs [witJob] (matchOne witResume witPrefs witJob)
    (by with_unfolding_all decide)).1

/-! ### Claim C2 -/

/-- Claim C2: the ranking step returns a permutation of its input, sorted in
descending order of score, and stably: any two results appearing in order
in the input with equal scores appear in the same order in the output. -/
theorem claim_C2 (l : List MatchResult) :
    (rank l).Perm l ∧
    List.Pairwise (fun a b => b.match_score ≤ a.match_score) (rank l) ∧
    (∀ a b : MatchResult, a.match_score = b.match_score →
      [a, b].Sublist l → [a, b].Sublist (rank l)) := by
  have htrans : ∀ (x y z : MatchResult),
      (decide (y.match_score ≤ x.match_score)) = true →
      (decide (z.match_score ≤ y.match_score)) = true →
      (decide (z.match_score ≤ x.match_score)) = true := by
    intro x y z h1 h2
    simp only [decide_eq_true_eq] at *
    exact le_trans h2 h1
  have htotal : ∀ (x y : MatchResult),
      ((decide (y.match_score ≤ x.match_score)) ||
        (decide (x.match_score ≤ y.match_score))) = true := by
    intro x y
    simp only [Bool.or_eq_true, decide_eq_true_eq]
    exact le_total y.match_score x.match_score
  refine ⟨List.mergeSort_perm l _, ?_, ?_⟩
  · have hs := List.sorted_mergeSort htrans htotal l
    exact hs.imp fun h => of_decide_eq_true h
  · intro a b hab hsub
    exact List.pair_sublist_mergeSort htrans htotal
      (by simp only [decide_eq_true_eq]; exact le_of_eq hab.symm) hsub

/-- Witness for C2: two equal-score results at input positions 1 and 2 stay
in that order after ranking. -/
theorem claim_C2_witness :
    [witResultA, witResultB].Sublist (rank [witResultC, witResultA, witResultB]) :=
  (claim_C2 [witResultC, witResultA, witResultB]).2.2 witResultA witResultB
    (by with_unfolding_all decide) (by with_unfolding_all decide)

/-! ### Claim C3 (corrected) -/

theorem matchOneOpt_title_none (resume_data : ResumeData) (preferences : Preferences)
    (job : JobListingOpt) (hexp : resume_data.experience ≠ []) (ht : job.title = none) :
    matchOneOpt resume_data preferences job = none := by
  simp only [matchOneOpt, ht, if_neg hexp]

theorem matchLoopOpt_none (resume_data : ResumeData) (preferences : Preferences)
    (jobs : List JobListingOpt) (j : JobListingOpt) (hj : j ∈ jobs)
    (hnone : matchOneOpt resume_data preferences j = none) :
    matchLoopOpt resume_data preferences jobs = none := by
  induction jobs with
  | nil => cases hj
  | cons a rest ih =>
    rcases List.mem_cons.mp hj with rfl | hmem
    · simp only [matchLoopOpt, hnone]
    · simp only [matchLoopOpt]
      cases h : matchOneOpt resume_data preferences a with
      | none => rfl
      | some r =>
        rw [ih hmem]
        rfl

/-- Counterexample to C3 as stated: with the second of two postings
malformed (absent `title`) and a non-empty experience list, the whole call
returns nothing — the well-formed first posting is not scored either — while
the same call on the well-formed posting alone does produce a result. -/
theorem claim_C3_counterexample :
    match_jobs_opt cxResume3 [cxJobOptGood, cxJobOptBad] ⟨none, none, none⟩ = none ∧
    (match_jobs_opt cxResume3 [cxJobOptGood] ⟨none, none, none⟩).isSome = true := by
  constructor
  · with_unfolding_all decide
  · with_unfolding_all decide

/-- Claim C3 amended: a posting with an absent `title` is not excluded;
whenever the profile's experience list is non-empty (so the title is
dereferenced), the error aborts the whole batch and no result list is
produced. -/
theorem claim_C3_amended (resume_data : ResumeData) (preferences : Preferences)
    (job_listings : List JobListingOpt) (hexp : resume_data.experience ≠ [])
    (hbad : ∃ j ∈ job_listings, j.title = none) :
    match_jobs_opt resume_data job_listings preferences = none := by
  obtain ⟨j, hj, hjt⟩ := hbad
  unfold match_jobs_opt
  rw [matchLoopOpt_none resume_data preferences job_listings j hj
    (matchOneOpt_title_none resume_data preferences j hexp hjt)]
  rfl

/-- Witness for the amended C3: hypotheses satisfied at a concrete input. -/
theorem claim_C3_witness :
    match_jobs_opt cxResume3 [cxJobOptBad] ⟨none, none, none⟩ = none :=
  claim_C3_amended cxResume3 ⟨none, none, none⟩ [cxJobOptBad]
    (by with_unfolding_all decide) ⟨cxJobOptBad, by simp, rfl⟩

/-! ### Claim C9 (corrected) -/

theorem data_append_model (a b : String) : (a ++ b).data = a.data ++ b.data := by
  cases a
  cases b
  rfl

theorem append_ne_empty (a b : String) (ha : a ≠ "") : a ++ b ≠ "" := by
  intro h
  apply ha
  have hd := congrArg String.data h
  rw [data_append_model] at hd
  have hna : a.data = [] := (List.append_eq_nil.mp hd).1
  cases a
  rw [show ([] : List Char) = "".data from rfl] at hna
  exact congrArg String.mk hna

theorem matchOne_reasons_eq (resume_data : ResumeData) (preferences : Preferences)
    (job : JobListing) :
    (matchOne resume_data preferences job).match_reasons =
      (if (calculate_skill_match_score resume_data.skills job.description).2 ≠ [] then
        ["Skills match: " ++ pyJoin ", "
          ((calculate_skill_match_score resume_data.skills job.description).2.take 3)]
       else [])
      ++ (if truthy (calculate_experience_match resume_data.experience job.title
            job.description).2 then
          ["Experience match: " ++
            ((calculate_experience_match resume_data.experience job.title
              job.description).2.getD "")]
         else [])
      ++ (if (calculate_location_match preferences.location job.location
            (pyLower (preferences.work_mode.getD "") == "remote")).2 then
          ["Remote work preference match"]
         else if (0.7 : ℚ) < (calculate_location_match preferences.location job.location
            (pyLower (preferences.work_mode.getD "") == "remote")).1 then
          ["Location preference match"]
         else [])
      ++ (if truthy preferences.job_type && truthy job.job_type
            && pyIn (pyLower (preferences.job_type.getD "")) (pyLower (job.job_type.getD ""))
          then ["Job type match: " ++ (job.job_type.getD "")] else []) := rfl

/-- Counterexample to C9 as stated: the profile's best experience entry has
the empty string as title, so `best_title = some ""` is not `None`, yet no
experience reason is emitted (Python's truthiness test rejects the empty
string) — here the whole reason list is empty. -/
theorem claim_C9_counterexample :
    (calculate_experience_match cxResume9.experience cxJob9.title
      cxJob9.description).2 = some "" ∧
    (matchOne cxResume9 ⟨none, none, none⟩ cxJob9).match_reasons = [] := by
  constructor
  · with_unfolding_all decide
  · with_unfolding_all decide

/-- Claim C9 amended: the reason list is built in the fixed order
skills → experience → location/remote → job type, each clause present iff
its condition holds, where the experience clause requires `best_title` to be
a **non-empty** string (not merely non-`None`); the remote and location
reasons are mutually exclusive, and the list contains no empty strings. -/
theorem claim_C9_amended (resume_data : ResumeData) (preferences : Preferences)
    (job : JobListing) :
    ((matchOne resume_data preferences job).match_reasons =
      (if (calculate_skill_match_score resume_data.skills job.description).2 = [] then []
       else ["Skills match: " ++ pyJoin ", "
          ((calculate_skill_match_score resume_data.skills job.description).2.take 3)])
      ++ (match (calculate_experience_match resume_data.experience job.title
            job.description).2 with
          | none => []
          | some t => if t = "" then [] else ["Experience match: " ++ t])
      ++ (if (calculate_location_match preferences.location job.location
            (pyLower (preferences.work_mode.getD "") == "remote")).2 then
          ["Remote work preference match"]
         else if (0.7 : ℚ) < (calculate_location_match preferences.location job.location
            (pyLower (preferences.work_mode.getD "") == "remote")).1 then
          ["Location preference match"]
         else [])
      ++ (if truthy preferences.job_type && truthy job.job_type
            && pyIn (pyLower (preferences.job_type.getD "")) (pyLower (job.job_type.getD ""))
          then ["Job type match: " ++ (job.job_type.getD "")] else [])) ∧
    "" ∉ (matchOne resume_data preferences job).match_reasons := by
  have h1 : (if (calculate_skill_match_score resume_data.skills job.description).2 ≠ [] then
        ["Skills match: " ++ pyJoin ", "
          ((calculate_skill_match_score resume_data.skills job.description).2.take 3)]
       else []) =
      (if (calculate_skill_match_score resume_data.skills job.description).2 = [] then []
       else ["Skills match: " ++ pyJoin ", "
          ((calculate_skill_match_score resume_data.skills job.description).2.take 3)]) := by
    by_cases h : (calculate_skill_match_score resume_data.skills job.description).2 = []
    · simp [h]
    · simp [h]
  have h2 : (if truthy (calculate_experience_match resume_data.experience job.title
        job.description).2 then
        ["Experience match: " ++
          ((calculate_experience_match resume_data.experience job.title
            job.description).2.getD "")]
       else []) =
      (match (calculate_experience_match resume_data.experience job.title
          job.description).2 with
        | none => []
        | some t => if t = "" then [] else ["Experience match: " ++ t]) := by
    cases hE : (calculate_experience_match resume_data.experience job.title
        job.description).2 with
    | none => rfl
    | some t =>
      by_cases ht : t = ""
      · subst ht
        rfl
      · simp [truthy, ht]
  have heq := matchOne_reasons_eq resume_data preferences job
  rw [h1, h2] at heq
  refine ⟨heq, ?_⟩
  rw [heq]
  simp only [List.mem_append, not_or]
  refine ⟨⟨⟨?_, ?_⟩, ?_⟩, ?_⟩
  · by_cases h : (calculate_skill_match_score resume_data.skills job.description).2 = []
    · simp [h]
    · rw [if_neg h]
      simp only [List.mem_singleton]
      intro hh
      exact append_ne_empty "Skills match: " _ (by decide) hh.symm
  · cases hE : (calculate_experience_match resume_data.experience job.title
        job.description).2 with
    | none => simp
    | some t =>
      rw [show (match some t with
          | none => ([] : List String)
          | some t => if t = "" then [] else ["Experience match: " ++ t]) =
          if t = "" then [] else ["Experience match: " ++ t] from rfl]
      by_cases ht : t = ""
      · simp [ht]
      · rw [if_neg ht]
        simp only [List.mem_singleton]
        intro hh
        exact append_ne_empty "Experience match: " _ (by decide) hh.symm
  · split_ifs
    · simp only [List.mem_singleton]
      intro hh
      exact absurd hh (by decide)
    · simp only [List.mem_singleton]
      intro hh
      exact absurd hh (by decide)
    · simp
  · by_cases h : (truthy preferences.job_type && truthy job.job_type
        && pyIn (pyLower (preferences.job_type.getD ""))
          (pyLower (job.job_type.getD ""))) = true
    · rw [if_pos h]
      simp only [List.mem_singleton]
      intro hh
      exact append_ne_empty "Job type match: " _ (by decide) hh.symm
    · rw [if_neg h]
      simp

/-- Witness for the amended C9 at the fixture inputs: the reason list of the
fixture match contains no empty string. -/
theorem claim_C9_witness :
    "" ∉ (matchOne witResume witPrefs witJob).match_reasons :=
  (claim_C9_amended witResume witPrefs witJob).2

/-! ### Claim C10 -/

/-- Claim C10: the result emitted for a posting carries all of that
posting's original fields unchanged (`job_id`, `title`, `company`,
`location`, `description`, `url`, `date_posted`, `salary_range`,
`job_type`, `work_mode`, `source`), in addition to `match_score` and
`match_reasons`; and that result is among the output of `match_jobs`
whenever the posting is among its input. -/
theorem claim_C10 (resume_data : ResumeData) (preferences : Preferences)
    (job : JobListing) (job_listings : List JobListing) (hj : job ∈ job_listings) :
    ((matchOne resume_data preferences job).job_id = job.job_id ∧
      (matchOne resume_data preferences job).title = job.title ∧
      (matchOne resume_data preferences job).company = job.company ∧
      (matchOne resume_data preferences job).location = job.location ∧
      (matchOne resume_data preferences job).description = job.description ∧
      (matchOne resume_data preferences job).url = job.url ∧
      (matchOne resume_data preferences job).date_posted = job.date_posted ∧
      (matchOne resume_data preferences job).salary_range = job.salary_range ∧
      (matchOne resume_data preferences job).job_type = job.job_type ∧
      (matchOne resume_data preferences job).work_mode = job.work_mode ∧
      (matchOne resume_data preferences job).source = job.source) ∧
    matchOne resume_data preferences job ∈
      match_jobs resume_data job_listings preferences := by
  refine ⟨⟨rfl, rfl, rfl, rfl, rfl, rfl, rfl, rfl, rfl, rfl, rfl⟩, ?_⟩
  simp only [match_jobs, rank, List.mem_mergeSort]
  exact List.mem_map_of_mem _ hj

/-- Witness for C10: at the fixture inputs the emitted result's `title`
equals the posting's. -/
theorem claim_C10_witness :
    (matchOne witResume witPrefs witJob).title = witJob.title :=
  ((claim_C10 witResume witPrefs witJob [witJob] (by simp)).1).2.1

end AutoJobber
